import Mathlib

/-!
Verification of the chassis REST controller
(`src/ironic/api/controllers/v1/chassis.py`).

The file shallowly embeds the controller's representation pipeline:
values carried by record fields, the persisted `ChassisRecord`, the API
representation `Chassis` (with an explicit Unset sentinel modelled as
`Option`), link synthesis, field projection, JSON-patch application,
the field-level diff of the PATCH handler, and the collection listing
pipeline.  Helpers that live elsewhere in the repository (the link
builder, `api_utils`, the persistence layer `objects.Chassis`) are
modelled from the specification; each such definition carries a doc
comment starting with `Modelled from the spec:`.
-/

/-- JSON-serializable value carried by a record field.  The source's
field values are strings, integers, null, or string-keyed mappings
(the `extra` metadata); nested mapping values are flattened to strings,
which no controller logic inspects. -/
inductive Val where
  | none
  | str (s : String)
  | num (n : Int)
  | dict (entries : List (String × String))
deriving DecidableEq, Repr

/-- Dict form of a record: an association list from field names to
values, mirroring the Python dict produced by `as_dict`. -/
abbrev Dict : Type := List (String × Val)

/-- Lookup of a key in the dict form (Python `dict.get`). -/
def dictGet (d : Dict) (k : String) : Option Val :=
  (d.find? (fun p => p.1 = k)).map (fun p => p.2)

/-- Assignment of a key in the dict form; replaces an existing entry or
appends a new one. -/
def dictSet (d : Dict) (k : String) (v : Val) : Dict :=
  if (d.find? (fun p => p.1 = k)).isSome then
    d.map (fun p => if p.1 = k then (k, v) else p)
  else
    d ++ [(k, v)]

/-- Removal of a key from the dict form. -/
def dictRemove (d : Dict) (k : String) : Dict :=
  d.filter (fun p => p.1 ≠ k)

/-- Hyperlink with an href and a relation name, as rendered in API
responses. -/
structure Link where
  href : String
  rel : String
deriving DecidableEq, Repr

/-- Modelled from the spec: the link builder produces an absolute URL
of the form base_url/v1/resource_type/resource_id; with bookmark set
the version prefix v1 is omitted. -/
def make_link (rel : String) (url : String) (resource : String)
    (resource_id : String) (bookmark : Bool) : Link :=
  if bookmark then
    { href := url ++ "/" ++ resource ++ "/" ++ resource_id, rel := rel }
  else
    { href := url ++ "/v1/" ++ resource ++ "/" ++ resource_id, rel := rel }

/-- Errors raised by the controller, following the spec's taxonomy:
bad query parameters, missing resources (including the detail-path
check), and malformed patch documents.  `internalError` stands for the
uncaught IndexError reachable from `detail` on a path with no parent
segment. -/
inductive Err where
  | invalidParameterValue (msg : String)
  | resourceNotFound
  | patchError (reason : String)
  | internalError
deriving DecidableEq, Repr

/-- Persisted chassis record (`objects.Chassis`): the identifier `id`
(internal, never exposed over the API), `uuid`, `description`, the
`extra` metadata mapping, and the two system timestamps. -/
structure ChassisRecord where
  id : Val
  uuid : Val
  description : Val
  extra : Val
  created_at : Val
  updated_at : Val
deriving DecidableEq, Repr

/-- Declared fields of `objects.Chassis`, in a fixed order; the PATCH
handler iterates exactly this list. -/
def chassisRecordFieldNames : List String :=
  ["id", "uuid", "description", "extra", "created_at", "updated_at"]

/-- Item access `record[field]` on the persisted record. -/
def ChassisRecord.get (r : ChassisRecord) (f : String) : Val :=
  if f = "id" then r.id
  else if f = "uuid" then r.uuid
  else if f = "description" then r.description
  else if f = "extra" then r.extra
  else if f = "created_at" then r.created_at
  else if f = "updated_at" then r.updated_at
  else Val.none

/-- Item assignment `record[field] = v` on the persisted record;
assignment to an undeclared field name leaves the record unchanged
(the PATCH loop only ever assigns declared fields). -/
def ChassisRecord.set (r : ChassisRecord) (f : String) (v : Val) : ChassisRecord :=
  if f = "id" then { r with id := v }
  else if f = "uuid" then { r with uuid := v }
  else if f = "description" then { r with description := v }
  else if f = "extra" then { r with extra := v }
  else if f = "created_at" then { r with created_at := v }
  else if f = "updated_at" then { r with updated_at := v }
  else r

/-- Dict form of a persisted record (`rpc_chassis.as_dict()`): every
declared field with its current value. -/
def ChassisRecord.as_dict (r : ChassisRecord) : Dict :=
  [("id", r.id), ("uuid", r.uuid), ("description", r.description),
   ("extra", r.extra), ("created_at", r.created_at), ("updated_at", r.updated_at)]

/-- API representation of a chassis (`Chassis(base.APIBase)`).  Each
exposed attribute is an `Option Val`: `Option.none` models the wsme
Unset sentinel, `some v` a set attribute (which may itself carry the
JSON null `Val.none`).  `links` and `nodes` are the two synthesized,
read-only link collections. -/
structure Chassis where
  uuid : Option Val
  description : Option Val
  extra : Option Val
  created_at : Option Val
  updated_at : Option Val
  links : Option (List Link)
  nodes : Option (List Link)
deriving DecidableEq, Repr

/-- Exposed record fields of the representation (the `self.fields`
list built by `Chassis.__init__`): every declared record field that is
also an attribute of the API class, i.e. everything but `id`. -/
def chassisExposedFieldNames : List String :=
  ["uuid", "description", "extra", "created_at", "updated_at"]

/-- Constructor `Chassis(**kwargs)`: each exposed record field is set
from the keyword dict, defaulting to Unset when absent; the `id` field
is skipped (not an API attribute), and `links`/`nodes` start Unset. -/
def Chassis.init (kwargs : Dict) : Chassis :=
  { uuid := dictGet kwargs "uuid",
    description := dictGet kwargs "description",
    extra := dictGet kwargs "extra",
    created_at := dictGet kwargs "created_at",
    updated_at := dictGet kwargs "updated_at",
    links := Option.none,
    nodes := Option.none }

/-- Attribute read `getattr(chassis, field)` for names drawn from the
declared record fields: the outer `Option.none` models an
AttributeError (the name, such as `id`, is not an API attribute);
`some v` returns the attribute, itself Unset or a value. -/
def Chassis.getattrField (c : Chassis) (f : String) : Option (Option Val) :=
  if f = "uuid" then some c.uuid
  else if f = "description" then some c.description
  else if f = "extra" then some c.extra
  else if f = "created_at" then some c.created_at
  else if f = "updated_at" then some c.updated_at
  else Option.none

/-- Dict form of the representation (`APIBase.as_dict`): every exposed
field whose attribute is currently set, with its value. -/
def Chassis.as_dict (c : Chassis) : Dict :=
  chassisExposedFieldNames.filterMap (fun f =>
    match c.getattrField f with
    | some (some v) => some (f, v)
    | _ => Option.none)

/-- Modelled from the spec: `unset_fields_except` clears (marks Unset)
every currently-set exposed attribute whose name is not in the given
list.  Following the converter's guarantee that `uuid` is preserved
internally for link construction "even when not present in the final
projected output", `uuid` is cleared like any other field when not
requested; the synthesized `links`/`nodes` attributes are not part of
the exposed record fields and are never touched. -/
def Chassis.unset_fields_except (c : Chassis) (fs : List String) : Chassis :=
  { c with
    uuid := if fs.contains "uuid" then c.uuid else Option.none,
    description := if fs.contains "description" then c.description else Option.none,
    extra := if fs.contains "extra" then c.extra else Option.none,
    created_at := if fs.contains "created_at" then c.created_at else Option.none,
    updated_at := if fs.contains "updated_at" then c.updated_at else Option.none }

/-- Reading a string-valued attribute for URL construction.  A record
always carries a string uuid; on a non-string or unset uuid the source
would raise a TypeError while concatenating, so theorems about the
conversion restrict records to string uuids and this total function
returns the empty string on the unreachable shapes. -/
def optValToStr (v : Option Val) : String :=
  match v with
  | some (Val.str s) => s
  | _ => ""

/-- Modelled from the spec: `check_for_invalid_fields` fails with
`InvalidParameterValue` if any requested field name is not among the
available fields (the keys of the representation's dict form). -/
def check_for_invalid_fields (fields : List String)
    (object_fields : List String) : Except Err Unit :=
  if fields.all (fun f => object_fields.contains f) then Except.ok ()
  else Except.error (Err.invalidParameterValue "non-existent fields requested")

/-- Static conversion step `Chassis._convert_with_links`: the uuid is
saved before any projection; with a field filter the representation is
projected and the `nodes` sub-links are skipped, without a filter the
`nodes` self+bookmark links are synthesized; the top-level self and
bookmark links are always synthesized from the saved uuid. -/
def Chassis.convert_with_links_static (c : Chassis) (url : String)
    (fields : Option (List String)) : Chassis :=
  let chassis_uuid := optValToStr c.uuid
  let nodeLinks :=
    [make_link "self" url "chassis" (chassis_uuid ++ "/nodes") false,
     make_link "bookmark" url "chassis" (chassis_uuid ++ "/nodes") true]
  let selfLinks :=
    [make_link "self" url "chassis" chassis_uuid false,
     make_link "bookmark" url "chassis" chassis_uuid true]
  let c1 :=
    match fields with
    | some fs => c.unset_fields_except fs
    | Option.none => { c with nodes := some nodeLinks }
  { c1 with links := some selfLinks }

/-- Classmethod `Chassis.convert_with_links`: builds the representation
from the record's dict form, validates a given field filter against the
representation's dict form, and applies the static conversion step. -/
def Chassis.convert_with_links (rpc : ChassisRecord) (host_url : String)
    (fields : Option (List String)) : Except Err Chassis :=
  let chassis := Chassis.init rpc.as_dict
  match fields with
  | some fs =>
      match check_for_invalid_fields fs (chassis.as_dict.map Prod.fst) with
      | Except.ok _ => Except.ok (chassis.convert_with_links_static host_url (some fs))
      | Except.error e => Except.error e
  | Option.none => Except.ok (chassis.convert_with_links_static host_url Option.none)

/-- Collection of chassis representations with the optional next-page
link produced by the pagination helper. -/
structure ChassisCollection where
  chassis : List Chassis
  next : Option String
deriving DecidableEq, Repr

/-- Modelled from the spec: the pagination helper appends a next link
iff the number of records returned equals the limit; it encodes the
last record's id as the new marker plus the same limit and sort
parameters. -/
def ChassisCollection.get_next (items : List Chassis) (limit : Nat)
    (host_url : String) (url : Option String) (sort_key sort_dir : String) :
    Option String :=
  if items.length = limit then
    let resource_url := match url with
      | some u => u
      | Option.none => "chassis"
    let lastMarker := match items.getLast? with
      | some c => optValToStr c.uuid
      | Option.none => ""
    some (host_url ++ "/" ++ resource_url ++ "?sort_key=" ++ sort_key ++
          "&sort_dir=" ++ sort_dir ++ "&limit=" ++ toString limit ++
          "&marker=" ++ lastMarker)
  else Option.none

/-- Conversion of a record page, one record at a time with the shared
field filter (the list comprehension inside the collection converter);
the first conversion failure propagates. -/
def convertList (records : List ChassisRecord) (host_url : String)
    (fields : Option (List String)) : Except Err (List Chassis) :=
  match records with
  | [] => Except.ok []
  | r :: rs =>
    match Chassis.convert_with_links r host_url fields with
    | Except.error e => Except.error e
    | Except.ok c =>
      match convertList rs host_url fields with
      | Except.error e => Except.error e
      | Except.ok cs => Except.ok (c :: cs)

/-- Static conversion `ChassisCollection.convert_with_links`: each
record is converted with the same field filter, and the next-page link
is computed from the converted page. -/
def ChassisCollection.convert_with_links (records : List ChassisRecord)
    (limit : Nat) (host_url : String) (url : Option String)
    (fields : Option (List String)) (sort_key sort_dir : String) :
    Except Err ChassisCollection :=
  match convertList records host_url fields with
  | Except.error e => Except.error e
  | Except.ok items =>
      Except.ok { chassis := items,
                  next := ChassisCollection.get_next items limit host_url url
                            sort_key sort_dir }

/-- Modelled from the spec: the limit is validated before use; a
missing limit falls back to the configured maximum, a non-positive
limit fails with `InvalidParameterValue`, and a positive limit is
capped at the configured maximum. -/
def validate_limit (maxLimit : Nat) (limit : Option Int) : Except Err Nat :=
  match limit with
  | Option.none => Except.ok maxLimit
  | some n =>
      if n ≤ 0 then Except.error (Err.invalidParameterValue "limit must be positive")
      else Except.ok (min maxLimit n.toNat)

/-- Modelled from the spec: the sort direction must be asc or desc;
any other value fails with `InvalidParameterValue`. -/
def validate_sort_dir (sort_dir : String) : Except Err String :=
  if sort_dir = "asc" ∨ sort_dir = "desc" then Except.ok sort_dir
  else Except.error (Err.invalidParameterValue "sort direction not acceptable")

/-- Modelled from the spec: the persistence lookup by uuid returns the
matching record or fails with `ResourceNotFound`. -/
def get_by_uuid (db : List ChassisRecord) (uuid : String) :
    Except Err ChassisRecord :=
  match db.find? (fun r => decide (r.uuid = Val.str uuid)) with
  | some r => Except.ok r
  | Option.none => Except.error Err.resourceNotFound

/-- Modelled from the spec: the persistence listing returns the records
after the (exclusive) marker, up to the limit.  The sort parameters,
already validated by the controller, do not affect the properties
proved here and the modelled store keeps its own order. -/
def chassisList (db : List ChassisRecord) (limit : Nat)
    (marker_obj : Option ChassisRecord) : List ChassisRecord :=
  let rest := match marker_obj with
    | some m =>
        (db.dropWhile (fun (r : ChassisRecord) => decide (r.uuid ≠ m.uuid))).drop 1
    | Option.none => db
  rest.take limit

/-- Modelled from the spec: saving a record persists its mutated fields
in place; records other than the fetched one are untouched. -/
def dbSave (db : List ChassisRecord) (uuid : String) (new : ChassisRecord) :
    List ChassisRecord :=
  db.map (fun r => if r.uuid = Val.str uuid then new else r)

/-- Modelled from the spec: the fields-parameter allow policy has no
denied field for this resource, so the check always succeeds. -/
def check_allow_specify_fields (_fields : Option (List String)) :
    Except Err Unit :=
  Except.ok ()

/-- Default field set applied by the plain list view
(`_DEFAULT_RETURN_FIELDS`). -/
def defaultReturnFields : List String := ["uuid", "description"]

/-- Sort keys rejected for pagination
(`ChassisController.invalid_sort_key_list`). -/
def invalid_sort_key_list : List String := ["extra"]

/-- Marker resolution inside `_get_chassis_collection`: the Python
truthiness test `if marker` skips resolution for a missing or empty
marker; otherwise the marker is resolved via `get_by_uuid`. -/
def resolveMarker (db : List ChassisRecord) (marker : Option String) :
    Except Err (Option ChassisRecord) :=
  match marker with
  | some m =>
      if m = "" then Except.ok Option.none
      else
        match get_by_uuid db m with
        | Except.ok r => Except.ok (some r)
        | Except.error e => Except.error e
  | Option.none => Except.ok Option.none

/-- Shared listing pipeline `ChassisController._get_chassis_collection`:
validates the limit, then the sort direction, then resolves the marker,
then rejects disallowed sort keys, and finally lists and converts the
page. -/
def ChassisController.get_chassis_collection (db : List ChassisRecord)
    (maxLimit : Nat) (host_url : String) (marker : Option String)
    (limit : Option Int) (sort_key sort_dir : String)
    (resource_url : Option String) (fields : Option (List String)) :
    Except Err ChassisCollection :=
  match validate_limit maxLimit limit with
  | Except.error e => Except.error e
  | Except.ok limitN =>
    match validate_sort_dir sort_dir with
    | Except.error e => Except.error e
    | Except.ok sdir =>
      match resolveMarker db marker with
      | Except.error e => Except.error e
      | Except.ok marker_obj =>
        if invalid_sort_key_list.contains sort_key then
          Except.error (Err.invalidParameterValue
            ("The sort_key value " ++ sort_key ++ " is an invalid field for sorting"))
        else
          ChassisCollection.convert_with_links
            (chassisList db limitN marker_obj) limitN host_url resource_url
            fields sort_key sdir

/-- List operation `ChassisController.get_all`: a missing fields
parameter falls back to the default field set, so conversion always
runs with a non-None field filter. -/
def ChassisController.get_all (db : List ChassisRecord) (maxLimit : Nat)
    (host_url : String) (marker : Option String) (limit : Option Int)
    (sort_key sort_dir : String) (fields : Option (List String)) :
    Except Err ChassisCollection :=
  match check_allow_specify_fields fields with
  | Except.error e => Except.error e
  | Except.ok _ =>
    let fields2 := match fields with
      | Option.none => defaultReturnFields
      | some fs => fs
    ChassisController.get_chassis_collection db maxLimit host_url marker limit
      sort_key sort_dir Option.none (some fields2)

/-- Splitting a character list on a separator, keeping empty segments —
the semantics of the Python `str.split` with an explicit separator. -/
def splitChars (sep : Char) : List Char → List (List Char)
  | [] => [[]]
  | c :: rest =>
    match splitChars sep rest with
    | [] => if c = sep then [[], []] else [[c]]
    | g :: gs => if c = sep then [] :: g :: gs else (c :: g) :: gs

/-- Second-to-last segment of the request path, the parent context
checked by the detail view (`request.path.split('/')[:-1][-1]`). -/
def parentSegment (path : String) : Option String :=
  ((((splitChars '/' path.toList).map (fun cs => String.mk cs)).dropLast).getLast?)

/-- Detail operation `ChassisController.detail`: reachable only when
the immediate parent path segment is the collection root; converts with
no field filter.  A path with no parent segment at all would raise an
uncaught IndexError in the source, modelled as `internalError`. -/
def ChassisController.detail (db : List ChassisRecord) (maxLimit : Nat)
    (host_url : String) (path : String) (marker : Option String)
    (limit : Option Int) (sort_key sort_dir : String) :
    Except Err ChassisCollection :=
  match parentSegment path with
  | Option.none => Except.error Err.internalError
  | some parent =>
    if parent ≠ "chassis" then Except.error Err.resourceNotFound
    else
      ChassisController.get_chassis_collection db maxLimit host_url marker limit
        sort_key sort_dir (some "chassis/detail") Option.none

/-- Single-resource operation `ChassisController.get_one`: fetches the
record by uuid and converts it with the caller's field filter. -/
def ChassisController.get_one (db : List ChassisRecord) (host_url : String)
    (chassis_uuid : String) (fields : Option (List String)) :
    Except Err Chassis :=
  match check_allow_specify_fields fields with
  | Except.error e => Except.error e
  | Except.ok _ =>
    match get_by_uuid db chassis_uuid with
    | Except.error e => Except.error e
    | Except.ok rpc => Chassis.convert_with_links rpc host_url fields

/-- JSON-patch operation: add, replace or remove at a target path.  A
top-level path such as /description is represented by its field key. -/
inductive PatchOp where
  | add (path : String) (value : Val)
  | replace (path : String) (value : Val)
  | remove (path : String)
deriving DecidableEq, Repr

/-- Modelled from the spec: one JSON-patch operation applied to the
dict form; remove and replace fail on a nonexistent path, carrying the
offending reason. -/
def applyPatchOp (d : Dict) (op : PatchOp) : Except String Dict :=
  match op with
  | PatchOp.add p v => Except.ok (dictSet d p v)
  | PatchOp.replace p v =>
      if (dictGet d p).isSome then Except.ok (dictSet d p v)
      else Except.error ("cannot replace a non-existent object member " ++ p)
  | PatchOp.remove p =>
      if (dictGet d p).isSome then Except.ok (dictRemove d p)
      else Except.error ("cannot remove a non-existent object member " ++ p)

/-- Modelled from the spec: `apply_jsonpatch` applies the operations in
order against the dict form, failing on the first inapplicable one. -/
def apply_jsonpatch (d : Dict) (ops : List PatchOp) : Except String Dict :=
  ops.foldlM applyPatchOp d

/-- Unset-to-null normalisation of the PATCH loop: an attribute read
back as Unset is treated as the JSON null. -/
def normUnset (attr : Option Val) : Val :=
  match attr with
  | Option.none => Val.none
  | some v => v

/-- One iteration of the PATCH diff loop: read the attribute off the
reconstructed representation (skipping the field entirely on an
AttributeError), treat Unset as null, and assign the record field only
when the value differs from the record's current one.  The list in the
accumulator records which fields have been assigned. -/
def updateFieldsStep (chassis : Chassis) (acc : ChassisRecord × List String)
    (field : String) : ChassisRecord × List String :=
  match chassis.getattrField field with
  | Option.none => acc
  | some attr =>
    let patch_val := normUnset attr
    if acc.1.get field ≠ patch_val then (acc.1.set field patch_val, acc.2 ++ [field])
    else acc

/-- Field-level diff of `ChassisController.patch` (the loop over
`objects.Chassis.fields`), returning the updated record and the list of
assigned fields. -/
def updateFields (rpc : ChassisRecord) (chassis : Chassis) :
    ChassisRecord × List String :=
  chassisRecordFieldNames.foldl (updateFieldsStep chassis) (rpc, [])

/-- Update operation `ChassisController.patch`: fetches the record,
applies the JSON patch to its dict form (wrapping a patch failure in
`PatchError`), reconstructs a representation, stages only changed
fields, saves, and converts the saved record with no field filter.  The
returned database makes persistence effects explicit: it is unchanged
on every error path. -/
def ChassisController.patch (db : List ChassisRecord) (host_url : String)
    (chassis_uuid : String) (patch : List PatchOp) :
    List ChassisRecord × Except Err Chassis :=
  match get_by_uuid db chassis_uuid with
  | Except.error e => (db, Except.error e)
  | Except.ok rpc =>
    match apply_jsonpatch rpc.as_dict patch with
    | Except.error reason => (db, Except.error (Err.patchError reason))
    | Except.ok patched =>
      let chassis := Chassis.init patched
      let updated := updateFields rpc chassis
      (dbSave db chassis_uuid updated.1,
       Chassis.convert_with_links updated.1 host_url Option.none)

lemma convert_none_fields (rpc : ChassisRecord) (host : String) :
    Chassis.convert_with_links rpc host Option.none =
      Except.ok
        { uuid := some rpc.uuid,
          description := some rpc.description,
          extra := some rpc.extra,
          created_at := some rpc.created_at,
          updated_at := some rpc.updated_at,
          links := some [make_link "self" host "chassis" (optValToStr (some rpc.uuid)) false,
                         make_link "bookmark" host "chassis" (optValToStr (some rpc.uuid)) true],
          nodes := some [make_link "self" host "chassis" (optValToStr (some rpc.uuid) ++ "/nodes") false,
                         make_link "bookmark" host "chassis" (optValToStr (some rpc.uuid) ++ "/nodes") true] } := by
  rfl

lemma convert_some_eq (rpc : ChassisRecord) (host : String) (fs : List String)
    (hok : check_for_invalid_fields fs
        ((Chassis.init rpc.as_dict).as_dict.map Prod.fst) = Except.ok ()) :
    Chassis.convert_with_links rpc host (some fs) =
      Except.ok
        { uuid := if fs.contains "uuid" then some rpc.uuid else Option.none,
          description := if fs.contains "description" then some rpc.description else Option.none,
          extra := if fs.contains "extra" then some rpc.extra else Option.none,
          created_at := if fs.contains "created_at" then some rpc.created_at else Option.none,
          updated_at := if fs.contains "updated_at" then some rpc.updated_at else Option.none,
          links := some [make_link "self" host "chassis" (optValToStr (some rpc.uuid)) false,
                         make_link "bookmark" host "chassis" (optValToStr (some rpc.uuid)) true],
          nodes := Option.none } := by
  simp only [Chassis.convert_with_links, hok]
  rfl

lemma get_set_same (r : ChassisRecord) (v : Val) (f : String)
    (hf : f ∈ chassisRecordFieldNames) : (r.set f v).get f = v := by
  simp only [chassisRecordFieldNames, List.mem_cons, List.not_mem_nil, or_false] at hf
  rcases hf with rfl | rfl | rfl | rfl | rfl | rfl <;>
    simp [ChassisRecord.set, ChassisRecord.get]

lemma set_undeclared (r : ChassisRecord) (v : Val) (f : String)
    (hf : f ∉ chassisRecordFieldNames) : r.set f v = r := by
  simp only [chassisRecordFieldNames, List.mem_cons, List.not_mem_nil, or_false,
    not_or] at hf
  obtain ⟨h1, h2, h3, h4, h5, h6⟩ := hf
  simp [ChassisRecord.set, h1, h2, h3, h4, h5, h6]

lemma get_set_ne (r : ChassisRecord) (v : Val) (f g : String)
    (hne : f ≠ g) : (r.set f v).get g = r.get g := by
  by_cases hf : f ∈ chassisRecordFieldNames
  · simp only [chassisRecordFieldNames, List.mem_cons, List.not_mem_nil,
      or_false] at hf
    rcases hf with rfl | rfl | rfl | rfl | rfl | rfl <;>
      · have hg := Ne.symm hne
        simp [ChassisRecord.set, ChassisRecord.get, hg]
  · rw [set_undeclared r v f hf]

lemma step_fst_get_ne (ch : Chassis) (p : ChassisRecord × List String)
    (field f : String) (hne : field ≠ f) :
    (updateFieldsStep ch p field).1.get f = p.1.get f := by
  unfold updateFieldsStep
  cases ch.getattrField field with
  | none => rfl
  | some attr =>
    simp only
    split
    · exact get_set_ne _ _ _ _ hne
    · rfl

lemma step_mem_ne (ch : Chassis) (p : ChassisRecord × List String)
    (field f : String) (hne : field ≠ f) :
    (f ∈ (updateFieldsStep ch p field).2 ↔ f ∈ p.2) := by
  unfold updateFieldsStep
  cases ch.getattrField field with
  | none => exact Iff.rfl
  | some attr =>
    simp only
    split
    · simp [List.mem_append, hne.symm]
    · exact Iff.rfl

lemma foldl_get_notin (ch : Chassis) (names : List String) (f : String) :
    ∀ p : ChassisRecord × List String, f ∉ names →
      ((names.foldl (updateFieldsStep ch) p).1.get f = p.1.get f) ∧
      ((f ∈ (names.foldl (updateFieldsStep ch) p).2) ↔ f ∈ p.2) := by
  induction names with
  | nil =>
    intro p _
    simp
  | cons a as ih =>
    intro p hf
    have ha : a ≠ f := by
      rintro rfl
      exact hf (List.mem_cons_self _ _)
    have hf' : f ∉ as := fun h => hf (List.mem_cons_of_mem _ h)
    simp only [List.foldl_cons]
    obtain ⟨h1, h2⟩ := ih (updateFieldsStep ch p a) hf'
    exact ⟨h1.trans (step_fst_get_ne ch p a f ha),
           h2.trans (step_mem_ne ch p a f ha)⟩

lemma foldl_get_skip (ch : Chassis) (names : List String) (f : String)
    (hattr : ch.getattrField f = Option.none) :
    ∀ p : ChassisRecord × List String,
      ((names.foldl (updateFieldsStep ch) p).1.get f = p.1.get f) ∧
      ((f ∈ (names.foldl (updateFieldsStep ch) p).2) ↔ f ∈ p.2) := by
  induction names with
  | nil =>
    intro p
    simp
  | cons a as ih =>
    intro p
    simp only [List.foldl_cons]
    obtain ⟨h1, h2⟩ := ih (updateFieldsStep ch p a)
    by_cases haf : a = f
    · subst haf
      have hstep : updateFieldsStep ch p a = p := by
        unfold updateFieldsStep
        rw [hattr]
      rw [hstep] at h1 h2 ⊢
      exact ⟨h1, h2⟩
    · exact ⟨h1.trans (step_fst_get_ne ch p a f haf),
             h2.trans (step_mem_ne ch p a f haf)⟩

lemma foldl_field_spec (ch : Chassis) (names : List String) (f : String)
    (attr : Option Val) (hdecl : f ∈ chassisRecordFieldNames)
    (hattr : ch.getattrField f = some attr) :
    ∀ p : ChassisRecord × List String, names.Nodup → f ∈ names → f ∉ p.2 →
      ((names.foldl (updateFieldsStep ch) p).1.get f =
          (if p.1.get f ≠ normUnset attr then normUnset attr else p.1.get f)) ∧
      ((f ∈ (names.foldl (updateFieldsStep ch) p).2) ↔ p.1.get f ≠ normUnset attr) := by
  induction names with
  | nil =>
    intro p _ hf _
    exact absurd hf (List.not_mem_nil f)
  | cons a as ih =>
    intro p hnd hf hstart
    simp only [List.foldl_cons]
    rcases List.mem_cons.mp hf with rfl | hfs
    · have has : f ∉ as := (List.nodup_cons.mp hnd).1
      have hstep : updateFieldsStep ch p f =
          (if p.1.get f ≠ normUnset attr
           then (p.1.set f (normUnset attr), p.2 ++ [f]) else p) := by
        unfold updateFieldsStep
        rw [hattr]
      rw [hstep]
      by_cases hcond : p.1.get f ≠ normUnset attr
      · rw [if_pos hcond, if_pos hcond]
        obtain ⟨h1, h2⟩ :=
          foldl_get_notin ch as f (p.1.set f (normUnset attr), p.2 ++ [f]) has
        refine ⟨?_, ?_⟩
        · rw [h1]
          exact get_set_same p.1 (normUnset attr) f hdecl
        · rw [h2]
          simp [hcond]
      · rw [if_neg hcond, if_neg hcond]
        obtain ⟨h1, h2⟩ := foldl_get_notin ch as f p has
        refine ⟨h1, ?_⟩
        rw [h2]
        simp [hstart, hcond]
    · have haf : a ≠ f := by
        rintro rfl
        exact (List.nodup_cons.mp hnd).1 hfs
      have hstart' : f ∉ (updateFieldsStep ch p a).2 :=
        fun h => hstart ((step_mem_ne ch p a f haf).mp h)
      obtain ⟨h1, h2⟩ :=
        ih (updateFieldsStep ch p a) (List.nodup_cons.mp hnd).2 hfs hstart'
      rw [step_fst_get_ne ch p a f haf] at h1 h2
      exact ⟨h1, h2⟩

lemma convertList_mem (host_url : String) (fields : Option (List String)) :
    ∀ (records : List ChassisRecord) (cs : List Chassis),
      convertList records host_url fields = Except.ok cs →
      ∀ c ∈ cs, ∃ r ∈ records,
        Chassis.convert_with_links r host_url fields = Except.ok c := by
  intro records
  induction records with
  | nil =>
    intro cs h c hc
    unfold convertList at h
    injection h with h
    rw [← h] at hc
    exact absurd hc (List.not_mem_nil c)
  | cons r rs ih =>
    intro cs h c hc
    unfold convertList at h
    cases h1 : Chassis.convert_with_links r host_url fields with
    | error e =>
      rw [h1] at h
      exact Except.noConfusion h
    | ok c1 =>
      rw [h1] at h
      cases h2 : convertList rs host_url fields with
      | error e =>
        rw [h2] at h
        exact Except.noConfusion h
      | ok cs1 =>
        rw [h2] at h
        injection h with h
        rw [← h] at hc
        rcases List.mem_cons.mp hc with rfl | hcs
        · exact ⟨r, List.mem_cons_self r rs, h1⟩
        · obtain ⟨r2, hr2, hconv⟩ := ih cs1 h2 c hcs
          exact ⟨r2, List.mem_cons_of_mem r hr2, hconv⟩
lemma convert_some_err (rpc : ChassisRecord) (host : String)
    (fs : List String) (e : Err)
    (hc : check_for_invalid_fields fs
        ((Chassis.init rpc.as_dict).as_dict.map Prod.fst) = Except.error e) :
    Chassis.convert_with_links rpc host (some fs) = Except.error e := by
  simp only [Chassis.convert_with_links, hc]

lemma convert_some_nodes_none (rpc : ChassisRecord) (host : String)
    (fs : List String) (c : Chassis)
    (h : Chassis.convert_with_links rpc host (some fs) = Except.ok c) :
    c.nodes = Option.none := by
  cases hc : check_for_invalid_fields fs
      ((Chassis.init rpc.as_dict).as_dict.map Prod.fst) with
  | error e =>
    rw [convert_some_err rpc host fs e hc] at h
    exact Except.noConfusion h
  | ok u =>
    cases u
    rw [convert_some_eq rpc host fs hc] at h
    injection h with h
    rw [← h]

lemma gcc_items_converted (db : List ChassisRecord) (maxLimit : Nat)
    (host : String) (marker : Option String) (limit : Option Int)
    (sort_key sort_dir : String) (resource_url : Option String)
    (fields : Option (List String)) (coll : ChassisCollection)
    (h : ChassisController.get_chassis_collection db maxLimit host marker limit
        sort_key sort_dir resource_url fields = Except.ok coll) :
    ∀ c ∈ coll.chassis, ∃ r,
      Chassis.convert_with_links r host fields = Except.ok c := by
  unfold ChassisController.get_chassis_collection at h
  cases h1 : validate_limit maxLimit limit with
  | error e =>
    simp only [h1] at h
    exact Except.noConfusion h
  | ok limitN =>
    simp only [h1] at h
    cases h2 : validate_sort_dir sort_dir with
    | error e =>
      simp only [h2] at h
      exact Except.noConfusion h
    | ok sdir =>
      simp only [h2] at h
      cases h3 : resolveMarker db marker with
      | error e =>
        simp only [h3] at h
        exact Except.noConfusion h
      | ok marker_obj =>
        simp only [h3] at h
        by_cases h4 : invalid_sort_key_list.contains sort_key
        · rw [if_pos h4] at h
          exact Except.noConfusion h
        · rw [if_neg h4] at h
          unfold ChassisCollection.convert_with_links at h
          cases h5 : convertList (chassisList db limitN marker_obj) host fields with
          | error e =>
            simp only [h5] at h
            exact Except.noConfusion h
          | ok items =>
            simp only [h5] at h
            injection h with h
            intro c hc
            rw [← h] at hc
            obtain ⟨r, -, hconv⟩ := convertList_mem host fields _ items h5 c hc
            exact ⟨r, hconv⟩

/-- Unfolding of the list operation: the fields parameter is defaulted
and the shared pipeline is invoked with a non-None field filter. -/
lemma get_all_eq (db : List ChassisRecord) (maxLimit : Nat) (host : String)
    (marker : Option String) (limit : Option Int) (sort_key sort_dir : String)
    (fields : Option (List String)) :
    ChassisController.get_all db maxLimit host marker limit sort_key sort_dir
        fields =
      ChassisController.get_chassis_collection db maxLimit host marker limit
        sort_key sort_dir Option.none
        (some (match fields with
               | Option.none => defaultReturnFields
               | some fs => fs)) := rfl

/-- Discriminator used in statements: the listing result is an
InvalidParameterValue error. -/
def isInvalidParameterError (r : Except Err ChassisCollection) : Bool :=
  match r with
  | Except.error (Err.invalidParameterValue _) => true
  | _ => false

/-- Full-view check used in statements: every exposed field and both
synthesized link collections are present on the representation. -/
def isFullView (c : Chassis) : Bool :=
  c.uuid.isSome && c.description.isSome && c.extra.isSome &&
  c.created_at.isSome && c.updated_at.isSome && c.links.isSome && c.nodes.isSome

/-- Concrete record used by the witness theorems. -/
def sampleRecord : ChassisRecord :=
  { id := Val.num 42, uuid := Val.str "u1",
    description := Val.str "rack A", extra := Val.dict [],
    created_at := Val.str "2000-01-01T12:00:00",
    updated_at := Val.str "2000-01-01T12:00:00" }

/-- Concrete one-record database used by the witness theorems. -/
def sampleDb : List ChassisRecord := [sampleRecord]

/-- Result of the plain list operation on the sample database. -/
def sampleListColl : ChassisCollection :=
  match ChassisController.get_all sampleDb 1000 "http://h" Option.none
      Option.none "id" "asc" Option.none with
  | Except.ok coll => coll
  | Except.error _ => { chassis := [], next := Option.none }

/-- Result of the single-resource get without fields on the sample
database. -/
def sampleOneChassis : Chassis :=
  match ChassisController.get_one sampleDb "http://h" "u1" Option.none with
  | Except.ok c => c
  | Except.error _ => Chassis.init []

/-- Result of the detail listing on the sample database. -/
def sampleDetailColl : ChassisCollection :=
  match ChassisController.detail sampleDb 1000 "http://h" "/v1/chassis/detail"
      Option.none Option.none "id" "asc" with
  | Except.ok coll => coll
  | Except.error _ => { chassis := [], next := Option.none }

/-- Result of converting the sample record with the description-only
field filter. -/
def sampleFilteredChassis : Chassis :=
  match Chassis.convert_with_links sampleRecord "http://h"
      (some ["description"]) with
  | Except.ok c => c
  | Except.error _ => Chassis.init []

/-- Result of converting the sample record without a field filter. -/
def sampleFullChassis : Chassis :=
  match Chassis.convert_with_links sampleRecord "http://h" Option.none with
  | Except.ok c => c
  | Except.error _ => Chassis.init []

/-- Representation reconstructed from the sample record after a patch
replacing the description, as the PATCH handler does. -/
def sampleChassisPatched : Chassis :=
  Chassis.init (dictSet sampleRecord.as_dict "description" (Val.str "rack B"))

/-- Patch document replacing the internal id field. -/
def samplePatchDocId : List PatchOp := [PatchOp.replace "id" (Val.num 9)]

/-- Dict form of the sample record after the id-replacing patch. -/
def samplePatchedDictId : Dict := dictSet sampleRecord.as_dict "id" (Val.num 9)

/-- C1: for every record converted with a non-None field filter, the
representation's top-level self and bookmark links are still synthesized from
the uuid value saved before projection — even when "uuid" is not in the
filter, in which case uuid is absent from the projected output — while the
nodes sub-collection links are not synthesized. -/
theorem C1_filtered_conversion_links (rpc : ChassisRecord) (host : String)
    (fs : List String) (s : String) (c : Chassis)
    (hu : rpc.uuid = Val.str s)
    (hc : Chassis.convert_with_links rpc host (some fs) = Except.ok c) :
    c.links = some [make_link "self" host "chassis" s false,
                    make_link "bookmark" host "chassis" s true] ∧
    c.nodes = Option.none ∧
    ("uuid" ∉ fs → c.uuid = Option.none) := by
  cases hk : check_for_invalid_fields fs
      ((Chassis.init rpc.as_dict).as_dict.map Prod.fst) with
  | error e =>
    rw [convert_some_err rpc host fs e hk] at hc
    exact Except.noConfusion hc
  | ok u =>
    cases u
    rw [convert_some_eq rpc host fs hk] at hc
    injection hc with hc
    rw [← hc]
    refine ⟨?_, rfl, ?_⟩
    · rw [hu]
      rfl
    · intro hnot
      simp [hnot]

/-- C1 witness: the sample record filtered to its description keeps the two
top-level links built from the saved uuid, has no nodes links, and has lost
its uuid attribute. -/
theorem C1_filtered_conversion_links_witness :
    (sampleFilteredChassis.links =
      some [make_link "self" "http://h" "chassis" "u1" false,
            make_link "bookmark" "http://h" "chassis" "u1" true]) ∧
    (sampleFilteredChassis.nodes = Option.none) ∧
    ("uuid" ∉ (["description"] : List String) →
      sampleFilteredChassis.uuid = Option.none) :=
  C1_filtered_conversion_links sampleRecord "http://h" ["description"] "u1"
    sampleFilteredChassis rfl rfl

/-- C2: for every patch applied by the update operation and every declared
record field whose attribute exists on the reconstructed representation, the
attribute is read back (an unset attribute normalised to null), compared with
the original record's value, and the field is assigned exactly when the two
differ; an unchanged field keeps its value and is never assigned. -/
theorem C2_patch_stages_only_changed (rpc : ChassisRecord) (ch : Chassis)
    (field : String) (attr : Option Val)
    (hf : field ∈ chassisRecordFieldNames)
    (hattr : ch.getattrField field = some attr) :
    ((updateFields rpc ch).1.get field =
        (if rpc.get field ≠ normUnset attr then normUnset attr
         else rpc.get field)) ∧
    ((field ∈ (updateFields rpc ch).2) ↔ rpc.get field ≠ normUnset attr) := by
  have hnd : chassisRecordFieldNames.Nodup := by decide
  exact foldl_field_spec ch chassisRecordFieldNames field attr hf hattr
      (rpc, []) hnd hf (List.not_mem_nil field)

/-- C2 witness: replacing the description of the sample record stages exactly
that change — the new value is written back because it differs from the
original. -/
theorem C2_patch_stages_only_changed_witness :
    ("description" ∈ chassisRecordFieldNames) ∧
    (sampleChassisPatched.getattrField "description" =
      some (some (Val.str "rack B"))) ∧
    (((updateFields sampleRecord sampleChassisPatched).1.get "description" =
        (if sampleRecord.get "description" ≠ normUnset (some (Val.str "rack B"))
         then normUnset (some (Val.str "rack B"))
         else sampleRecord.get "description")) ∧
      (("description" ∈ (updateFields sampleRecord sampleChassisPatched).2) ↔
        sampleRecord.get "description" ≠ normUnset (some (Val.str "rack B")))) :=
  ⟨by decide, by decide,
   C2_patch_stages_only_changed sampleRecord sampleChassisPatched "description"
     (some (Val.str "rack B")) (by decide) (by decide)⟩

/-- C3: when applying the patch document to the record's dict form fails, the
update operation fails with PatchError carrying the offending reason, and the
database is unchanged — no field assignment and no save happen. -/
theorem C3_patch_error_no_mutation (db : List ChassisRecord)
    (host uuid : String) (doc : List PatchOp) (rpc : ChassisRecord)
    (reason : String)
    (hget : get_by_uuid db uuid = Except.ok rpc)
    (herr : apply_jsonpatch rpc.as_dict doc = Except.error reason) :
    ChassisController.patch db host uuid doc =
      (db, Except.error (Err.patchError reason)) := by
  unfold ChassisController.patch
  simp only [hget, herr]

/-- C3 witness: removing a nonexistent member on the sample database fails
with a PatchError naming the member and leaves the database untouched. -/
theorem C3_patch_error_no_mutation_witness :
    ChassisController.patch sampleDb "http://h" "u1" [PatchOp.remove "nothere"] =
      (sampleDb, Except.error (Err.patchError
        "cannot remove a non-existent object member nothere")) :=
  C3_patch_error_no_mutation sampleDb "http://h" "u1" [PatchOp.remove "nothere"]
    sampleRecord "cannot remove a non-existent object member nothere" rfl rfl

/-- C4 counterexample: on a concrete database the single-resource get without
a fields parameter returns a representation whose nodes links are present,
and the plain collection list returns its one representation with no nodes
links — the opposite of the claim on both sides. -/
theorem C4_nodes_links_counterexample :
    ((ChassisController.get_one sampleDb "http://h" "u1" Option.none).map
        (fun c => c.nodes.isSome) = Except.ok true) ∧
    ((ChassisController.get_all sampleDb 1000 "http://h" Option.none Option.none
        "id" "asc" Option.none).map
        (fun coll => coll.chassis.map (fun c => c.nodes.isSome)) =
      Except.ok [false]) := by
  constructor <;> rfl

/-- C4 (amended): the nodes links are synthesized exactly when conversion runs
without a field filter — every representation returned by the plain collection
list operation lacks the nodes links, because the list view always applies a
field filter (defaulting to uuid and description), while the single-resource
get without a fields parameter returns its representation with the two nodes
links present. -/
theorem C4_nodes_links_amended (db : List ChassisRecord) (maxLimit : Nat)
    (host : String) (marker : Option String) (limit : Option Int)
    (sort_key sort_dir : String) (fields : Option (List String))
    (coll : ChassisCollection) (db2 : List ChassisRecord) (host2 u : String)
    (c : Chassis)
    (hall : ChassisController.get_all db maxLimit host marker limit sort_key
        sort_dir fields = Except.ok coll)
    (hone : ChassisController.get_one db2 host2 u Option.none = Except.ok c) :
    (coll.chassis.all (fun x => x.nodes.isNone) = true) ∧
    (c.nodes.map List.length = some 2) := by
  constructor
  · rw [get_all_eq] at hall
    have hmem := gcc_items_converted db maxLimit host marker limit sort_key
        sort_dir Option.none _ coll hall
    rw [List.all_eq_true]
    intro x hx
    obtain ⟨r, hr⟩ := hmem x hx
    rw [convert_some_nodes_none r host _ x hr]
    rfl
  · unfold ChassisController.get_one check_allow_specify_fields at hone
    cases hg : get_by_uuid db2 u with
    | error e =>
      simp only [hg] at hone
      exact Except.noConfusion hone
    | ok rpc =>
      simp only [hg] at hone
      rw [convert_none_fields] at hone
      injection hone with hone
      rw [← hone]
      rfl

/-- C4 witness: on the sample database the list view carries no nodes links
and the single-resource get carries exactly two. -/
theorem C4_nodes_links_amended_witness :
    (sampleListColl.chassis.all (fun x => x.nodes.isNone) = true) ∧
    (sampleOneChassis.nodes.map List.length = some 2) :=
  C4_nodes_links_amended sampleDb 1000 "http://h" Option.none Option.none "id"
    "asc" Option.none sampleListColl sampleDb "http://h" "u1" sampleOneChassis
    rfl rfl

/-- C5: a collection listing whose sort_key is the disallowed metadata field
"extra" fails with InvalidParameterValue for every sort_dir value (an invalid
sort_dir itself yields an InvalidParameterValue), provided the limit is valid
and the marker, when given, resolves. -/
theorem C5_sort_key_extra_invalid (db : List ChassisRecord) (maxLimit : Nat)
    (host : String) (marker : Option String) (limit : Option Int)
    (fields : Option (List String)) (sort_dir : String) (n : Nat)
    (hlimit : validate_limit maxLimit limit = Except.ok n)
    (hmarker : ∀ m, marker = some m → m ≠ "" →
      ∃ r, get_by_uuid db m = Except.ok r) :
    isInvalidParameterError
      (ChassisController.get_all db maxLimit host marker limit "extra" sort_dir
        fields) = true := by
  rw [get_all_eq]
  unfold ChassisController.get_chassis_collection
  simp only [hlimit]
  by_cases hd : sort_dir = "asc" ∨ sort_dir = "desc"
  · have hsd : validate_sort_dir sort_dir = Except.ok sort_dir := by
      unfold validate_sort_dir
      rw [if_pos hd]
    simp only [hsd]
    have hmo : ∃ mo, resolveMarker db marker = Except.ok mo := by
      cases marker with
      | none => exact ⟨Option.none, rfl⟩
      | some m =>
        by_cases hm : m = ""
        · refine ⟨Option.none, ?_⟩
          simp only [resolveMarker]
          rw [if_pos hm]
        · obtain ⟨r, hr⟩ := hmarker m rfl hm
          refine ⟨some r, ?_⟩
          simp only [resolveMarker]
          rw [if_neg hm, hr]
    obtain ⟨mo, hmo⟩ := hmo
    simp only [hmo]
    rfl
  · have hsd : validate_sort_dir sort_dir =
        Except.error (Err.invalidParameterValue "sort direction not acceptable") := by
      unfold validate_sort_dir
      rw [if_neg hd]
    simp only [hsd]
    rfl

/-- C5 witness: with sort_key extra the sample listing fails with
InvalidParameterValue both for a valid and for an invalid sort direction. -/
theorem C5_sort_key_extra_invalid_witness :
    (isInvalidParameterError (ChassisController.get_all sampleDb 1000 "http://h"
        Option.none Option.none "extra" "desc" Option.none) = true) ∧
    (isInvalidParameterError (ChassisController.get_all sampleDb 1000 "http://h"
        Option.none Option.none "extra" "sideways" Option.none) = true) :=
  ⟨C5_sort_key_extra_invalid sampleDb 1000 "http://h" Option.none Option.none
      Option.none "desc" 1000 rfl (fun _ hm => Option.noConfusion hm),
   C5_sort_key_extra_invalid sampleDb 1000 "http://h" Option.none Option.none
      Option.none "sideways" 1000 rfl (fun _ hm => Option.noConfusion hm)⟩

/-- C6: the detail listing checks the immediate parent path segment — with a
parent other than the collection root "chassis" it fails with
ResourceNotFound, while with the right parent it is exactly the shared
listing pipeline with no field filter, and every representation it then
returns is a full view (all exposed fields and both link collections
present). -/
theorem C6_detail_parent_and_full_view (db : List ChassisRecord)
    (maxLimit : Nat) (host path : String) (marker : Option String)
    (limit : Option Int) (sort_key sort_dir : String) (p : String)
    (coll : ChassisCollection)
    (hp : parentSegment path = some p) :
    (p ≠ "chassis" →
      ChassisController.detail db maxLimit host path marker limit sort_key
          sort_dir = Except.error Err.resourceNotFound) ∧
    (p = "chassis" →
      ChassisController.detail db maxLimit host path marker limit sort_key
          sort_dir =
        ChassisController.get_chassis_collection db maxLimit host marker limit
          sort_key sort_dir (some "chassis/detail") Option.none) ∧
    (ChassisController.detail db maxLimit host path marker limit sort_key
        sort_dir = Except.ok coll →
      coll.chassis.all isFullView = true) := by
  have hdet_err : p ≠ "chassis" →
      ChassisController.detail db maxLimit host path marker limit sort_key
          sort_dir = Except.error Err.resourceNotFound := by
    intro hne
    unfold ChassisController.detail
    simp only [hp]
    rw [if_pos hne]
  have hdet_ok : p = "chassis" →
      ChassisController.detail db maxLimit host path marker limit sort_key
          sort_dir =
        ChassisController.get_chassis_collection db maxLimit host marker limit
          sort_key sort_dir (some "chassis/detail") Option.none := by
    intro hpc
    unfold ChassisController.detail
    simp only [hp, hpc]
    rw [if_neg (by simp)]
  refine ⟨hdet_err, hdet_ok, ?_⟩
  intro hok
  by_cases hpc : p = "chassis"
  · rw [hdet_ok hpc] at hok
    have hmem := gcc_items_converted db maxLimit host marker limit sort_key
        sort_dir (some "chassis/detail") Option.none coll hok
    rw [List.all_eq_true]
    intro c hc
    obtain ⟨r, hr⟩ := hmem c hc
    rw [convert_none_fields] at hr
    injection hr with hr
    rw [← hr]
    rfl
  · rw [hdet_err hpc] at hok
    exact Except.noConfusion hok

/-- C6 witness: on the sample database a detail request under a parent other
than chassis fails with ResourceNotFound, and the well-formed detail request
returns full representations. -/
theorem C6_detail_parent_and_full_view_witness :
    (ChassisController.detail sampleDb 1000 "http://h" "/v1/foo/detail"
        Option.none Option.none "id" "asc" =
      Except.error Err.resourceNotFound) ∧
    (sampleDetailColl.chassis.all isFullView = true) :=
  ⟨(C6_detail_parent_and_full_view sampleDb 1000 "http://h" "/v1/foo/detail"
      Option.none Option.none "id" "asc" "foo"
      { chassis := [], next := Option.none } rfl).1 (by decide),
   (C6_detail_parent_and_full_view sampleDb 1000 "http://h" "/v1/chassis/detail"
      Option.none Option.none "id" "asc" "chassis" sampleDetailColl
      rfl).2.2 rfl⟩

/-- C7: converting a record without a field filter and reading back each
exposed field (excluding the synthesized links and nodes) yields exactly the
original record's value for that field. -/
theorem C7_convert_roundtrip (rpc : ChassisRecord) (host : String) (s : String)
    (c : Chassis)
    (hu : rpc.uuid = Val.str s)
    (hc : Chassis.convert_with_links rpc host Option.none = Except.ok c) :
    c.uuid = some rpc.uuid ∧ c.description = some rpc.description ∧
    c.extra = some rpc.extra ∧ c.created_at = some rpc.created_at ∧
    c.updated_at = some rpc.updated_at := by
  rw [convert_none_fields] at hc
  injection hc with hc
  rw [← hc]
  exact ⟨rfl, rfl, rfl, rfl, rfl⟩

/-- C7 witness: the sample record converted without a field filter reads back
its own field values. -/
theorem C7_convert_roundtrip_witness :
    sampleFullChassis.uuid = some sampleRecord.uuid ∧
    sampleFullChassis.description = some sampleRecord.description ∧
    sampleFullChassis.extra = some sampleRecord.extra ∧
    sampleFullChassis.created_at = some sampleRecord.created_at ∧
    sampleFullChassis.updated_at = some sampleRecord.updated_at :=
  C7_convert_roundtrip sampleRecord "http://h" "u1" sampleFullChassis rfl rfl

/-- C8: a representation produced without a field filter carries exactly two
top-level links (a self link then a bookmark link) and exactly two nodes
links (a self link then a bookmark link). -/
theorem C8_two_links_two_nodes (c : Chassis) (url : String) :
    ((c.convert_with_links_static url Option.none).links.map
        (fun l => l.map Link.rel) = some ["self", "bookmark"]) ∧
    ((c.convert_with_links_static url Option.none).nodes.map
        (fun l => l.map Link.rel) = some ["self", "bookmark"]) ∧
    ((c.convert_with_links_static url Option.none).links.map List.length =
      some 2) ∧
    ((c.convert_with_links_static url Option.none).nodes.map List.length =
      some 2) :=
  ⟨rfl, rfl, rfl, rfl⟩

/-- C9: a declared record field with no attribute on the API representation
(attribute lookup failure, as for the internal id field) is silently skipped
by the PATCH diff: the record keeps its value for it, the field is never
staged as a change, and an otherwise valid patch is not rejected — the update
succeeds and returns the unfiltered conversion of the saved record. -/
theorem C9_patch_skips_unexposed (rpc : ChassisRecord) (ch : Chassis)
    (field : String) (db : List ChassisRecord) (host uuid : String)
    (doc : List PatchOp) (rec : ChassisRecord) (patched : Dict)
    (hattr : ch.getattrField field = Option.none)
    (hget : get_by_uuid db uuid = Except.ok rec)
    (hpatch : apply_jsonpatch rec.as_dict doc = Except.ok patched) :
    ((updateFields rpc ch).1.get field = rpc.get field) ∧
    (field ∉ (updateFields rpc ch).2) ∧
    ((ChassisController.patch db host uuid doc).2 =
      Chassis.convert_with_links (updateFields rec (Chassis.init patched)).1
        host Option.none) ∧
    ((ChassisController.patch db host uuid doc).2.isOk = true) := by
  obtain ⟨h1, h2⟩ := foldl_get_skip ch chassisRecordFieldNames field hattr
      (rpc, [])
  have h3 : (ChassisController.patch db host uuid doc).2 =
      Chassis.convert_with_links (updateFields rec (Chassis.init patched)).1
        host Option.none := by
    unfold ChassisController.patch
    simp only [hget, hpatch]
  refine ⟨h1, ?_, h3, ?_⟩
  · intro hx
    exact absurd (h2.mp hx) (List.not_mem_nil field)
  · rw [h3, convert_none_fields]
    rfl

/-- C9 witness: a patch replacing the internal id field on the sample record
is applied to the dict form without error, yet the saved record keeps its id,
nothing is staged for id, and the update succeeds. -/
theorem C9_patch_skips_unexposed_witness :
    ((updateFields sampleRecord (Chassis.init samplePatchedDictId)).1.get "id" =
      sampleRecord.get "id") ∧
    ("id" ∉ (updateFields sampleRecord (Chassis.init samplePatchedDictId)).2) ∧
    ((ChassisController.patch sampleDb "http://h" "u1" samplePatchDocId).2 =
      Chassis.convert_with_links
        (updateFields sampleRecord (Chassis.init samplePatchedDictId)).1
        "http://h" Option.none) ∧
    ((ChassisController.patch sampleDb "http://h" "u1" samplePatchDocId).2.isOk =
      true) :=
  C9_patch_skips_unexposed sampleRecord (Chassis.init samplePatchedDictId) "id"
    sampleDb "http://h" "u1" samplePatchDocId sampleRecord samplePatchedDictId
    rfl rfl rfl

/-- C10: in the listing pipeline the marker is resolved before the sort_key is
checked against the disallowed list — with a valid limit and sort direction
and a marker identifying no existing record, the operation fails with
ResourceNotFound for every sort_key, including a disallowed one, and in that
situation it never reports InvalidParameterValue. -/
theorem C10_marker_before_sort_key (db : List ChassisRecord) (maxLimit : Nat)
    (host : String) (m : String) (limit : Option Int) (sort_dir : String)
    (resource_url : Option String) (fields : Option (List String))
    (sort_key : String) (n : Nat)
    (hlimit : validate_limit maxLimit limit = Except.ok n)
    (hdir : sort_dir = "asc" ∨ sort_dir = "desc")
    (hm : m ≠ "")
    (hmiss : get_by_uuid db m = Except.error Err.resourceNotFound) :
    (ChassisController.get_chassis_collection db maxLimit host (some m) limit
        sort_key sort_dir resource_url fields =
      Except.error Err.resourceNotFound) ∧
    (isInvalidParameterError
      (ChassisController.get_chassis_collection db maxLimit host (some m) limit
        sort_key sort_dir resource_url fields) = false) := by
  have hsd : validate_sort_dir sort_dir = Except.ok sort_dir := by
    unfold validate_sort_dir
    rw [if_pos hdir]
  have hrm : resolveMarker db (some m) = Except.error Err.resourceNotFound := by
    simp only [resolveMarker]
    rw [if_neg hm, hmiss]
  have hmain : ChassisController.get_chassis_collection db maxLimit host
      (some m) limit sort_key sort_dir resource_url fields =
      Except.error Err.resourceNotFound := by
    unfold ChassisController.get_chassis_collection
    simp only [hlimit, hsd, hrm]
  refine ⟨hmain, ?_⟩
  rw [hmain]
  rfl

/-- C10 witness: on the sample database a nonexistent marker together with the
disallowed sort_key extra yields ResourceNotFound, not InvalidParameterValue. -/
theorem C10_marker_before_sort_key_witness :
    (ChassisController.get_chassis_collection sampleDb 1000 "http://h"
        (some "missing") Option.none "extra" "asc" Option.none Option.none =
      Except.error Err.resourceNotFound) ∧
    (isInvalidParameterError
      (ChassisController.get_chassis_collection sampleDb 1000 "http://h"
        (some "missing") Option.none "extra" "asc" Option.none Option.none) =
      false) :=
  C10_marker_before_sort_key sampleDb 1000 "http://h" "missing" Option.none
    "asc" Option.none Option.none "extra" 1000 rfl (Or.inl rfl) (by decide) rfl
